import Mathlib

/-!
Verification of the recipe import pipeline of `netlify/functions/import-recipe.js`.

The JavaScript source is shallowly embedded: JavaScript values that flow
through the extractors are modelled by the inductive type `Js` (JSON values
plus `undefined`), with explicit truthiness.  Operations that can throw a
`TypeError` in JavaScript (property access on `null`/`undefined`, calling a
string method on a non-string) are modelled in the `Except Unit` monad; the
`try`/`catch` blocks of the source become explicit matches on that monad.
Machine numbers are modelled as `Int` (the values reaching the arithmetic in
this file are integers produced by `parseInt`/digit runs; IEEE-754 rounding
plays no role at these magnitudes).  Strings use Lean `String`; the
whitespace and word-character classes are the ASCII ones, which agree with
the JavaScript regexes on the inputs considered here.
-/

/-- A JavaScript value as seen by the import pipeline: the JSON values plus
`undefined`.  `obj` keeps fields as an association list in source order. -/
inductive Js where
  | undefined : Js
  | null : Js
  | bool : Bool → Js
  | num : Int → Js
  | str : String → Js
  | arr : List Js → Js
  | obj : List (String × Js) → Js

/-- JavaScript truthiness of a value. -/
def truthy : Js → Bool
  | .undefined => false
  | .null => false
  | .bool b => b
  | .num n => n != 0
  | .str s => s != ""
  | .arr _ => true
  | .obj _ => true

/-- Property read `v[k]` for a receiver that is not `null`/`undefined`
(such a read never throws; non-objects simply yield `undefined`). -/
def getProp : Js → String → Js
  | .obj fs, k =>
    match fs.find? (fun p => p.1 == k) with
    | some p => p.2
    | none => .undefined
  | _, _ => .undefined

/-- Property read `v[k]` including the `TypeError` thrown when the receiver
is `null` or `undefined`. -/
def getEx : Js → String → Except Unit Js
  | .null, _ => .error ()
  | .undefined, _ => .error ()
  | v, k => .ok (getProp v k)

mutual

/-- The JavaScript `String(v)` coercion (for the values of the model). -/
def jsToString : Js → String
  | .undefined => "undefined"
  | .null => "null"
  | .bool true => "true"
  | .bool false => "false"
  | .num n => toString n
  | .str s => s
  | .arr xs => jsArrToString xs
  | .obj _ => "[object Object]"

/-- `Array.prototype.toString`: elements joined with commas, where `null`
and `undefined` elements contribute the empty string. -/
def jsArrToString : List Js → String
  | [] => ""
  | [x] => jsElemToString x
  | x :: y :: rest => jsElemToString x ++ "," ++ jsArrToString (y :: rest)
termination_by structural l => l

/-- One element of an array being stringified (also used by `Array.join`);
same as `jsToString` except on `null`/`undefined`. -/
def jsElemToString : Js → String
  | .undefined => ""
  | .null => ""
  | .bool true => "true"
  | .bool false => "false"
  | .num n => toString n
  | .str s => s
  | .arr ys => jsArrToString ys
  | .obj _ => "[object Object]"
termination_by structural v => v

end

/-- The string a JavaScript expression `v || ''` contributes once it is later
coerced with `String(...)`: the stringified value when truthy, else `""`. -/
def candStr (v : Js) : String :=
  if truthy v then jsToString v else ""

/-! ### String utilities (the regex work of the helpers) -/

/-- One pass of `replace(/\s+/g, ' ')`: every maximal whitespace run becomes
a single space.  The flag records whether the previous char was whitespace. -/
def collapseWsAux : Bool → List Char → List Char
  | _, [] => []
  | inWs, c :: rest =>
    if c.isWhitespace then
      if inWs then collapseWsAux true rest
      else ' ' :: collapseWsAux true rest
    else c :: collapseWsAux false rest

/-- `s.replace(/\s+/g, ' ')`. -/
def collapseWs (s : String) : String :=
  String.mk (collapseWsAux false s.toList)

/-- Drop characters up to and including the next `>`. -/
def dropThroughGt (cs : List Char) : List Char :=
  (cs.dropWhile (fun c => c != '>')).drop 1

/-- One pass of `replace(/<[^>]*>/g, '')`: from each `<` that is followed by
some `>`, drop everything through that first `>`; a `<` with no later `>`
matches nothing and is kept.  Fuel is the length of the list. -/
def stripTagsAux : Nat → List Char → List Char
  | 0, l => l
  | _ + 1, [] => []
  | fuel + 1, c :: rest =>
    if c = '<' then
      if rest.contains '>' then stripTagsAux fuel (dropThroughGt rest)
      else c :: rest
    else c :: stripTagsAux fuel rest

/-- `s.replace(/<[^>]*>/g, '')`. -/
def stripTags (s : String) : String :=
  String.mk (stripTagsAux (s.length + 1) s.toList)

/-- `s.trim()`: strip leading and trailing whitespace (character-list
implementation so that concrete values reduce in the kernel). -/
def jsTrim (s : String) : String :=
  String.mk ((s.toList.dropWhile Char.isWhitespace).reverse.dropWhile Char.isWhitespace).reverse

/-- `cleanText` of the source applied to a string: collapse whitespace, then
strip tags, then trim (in that order, as in the source). -/
def cleanTextStr (s : String) : String :=
  jsTrim (stripTags (collapseWs s))

/-- `cleanText(text)`: `''` for falsy input, else the cleaned `String(text)`. -/
def cleanTextJs (v : Js) : String :=
  if truthy v then cleanTextStr (jsToString v) else ""

/-- Digits of the first run of `\d+` in the character list, if any. -/
def digitRunAux : List Char → Option (List Char)
  | [] => none
  | c :: rest =>
    if c.isDigit then some (c :: rest.takeWhile Char.isDigit)
    else digitRunAux rest

/-- Numeric value of a digit list. -/
def digitsToNat (ds : List Char) : Nat :=
  ds.foldl (fun acc c => acc * 10 + (c.toNat - '0'.toNat)) 0

/-- `String(x).match(/(\d+)/)`: value of the first digit run, if any. -/
def firstDigits (s : String) : Option Int :=
  (digitRunAux s.toList).map (fun ds => Int.ofNat (digitsToNat ds))

/-- Hex digit test for `parseInt` base 16. -/
def isHexDigitChar (c : Char) : Bool :=
  c.isDigit || (decide ('a' ≤ c) && decide (c ≤ 'f')) || (decide ('A' ≤ c) && decide (c ≤ 'F'))

/-- Value of one hex digit. -/
def hexDigitVal (c : Char) : Nat :=
  if c.isDigit then c.toNat - '0'.toNat
  else if 'a' ≤ c then c.toNat - 'a'.toNat + 10
  else c.toNat - 'A'.toNat + 10

/-- Value of a hex-digit list. -/
def hexToNat (ds : List Char) : Nat :=
  ds.foldl (fun acc c => acc * 16 + hexDigitVal c) 0

/-- Leading hex-digit run (after `0x`); empty run models `NaN`. -/
def parseHexRun (cs : List Char) : Option Int :=
  match cs.takeWhile isHexDigitChar with
  | [] => none
  | ds => some (Int.ofNat (hexToNat ds))

/-- Unsigned body of `parseInt`. -/
def parseIntBody (cs : List Char) : Option Int :=
  match cs with
  | '0' :: 'x' :: rest => parseHexRun rest
  | '0' :: 'X' :: rest => parseHexRun rest
  | _ =>
    match cs.takeWhile Char.isDigit with
    | [] => none
    | ds => some (Int.ofNat (digitsToNat ds))

/-- Sign handling of `parseInt`. -/
def parseIntSigned (cs : List Char) : Option Int :=
  match cs with
  | '-' :: rest => (parseIntBody rest).map (fun n => -n)
  | '+' :: rest => parseIntBody rest
  | _ => parseIntBody cs

/-- `parseInt(str)` with default radix detection: skip leading whitespace,
optional sign, then a `0x`/`0X` hex literal or a decimal digit run; `none`
models `NaN`. -/
def parseIntJs (s : String) : Option Int :=
  parseIntSigned (s.toList.dropWhile Char.isWhitespace)

/-! ### parseDuration -/

/-- Suffix after the leftmost case-insensitive `PT` occurrence, i.e. the
position where the groups of `/PT(?:(\d+)H)?(?:(\d+)M)?(?:(\d+)S)?/i` are
tried; `none` when the regex does not match at all. -/
def afterPT : List Char → Option (List Char)
  | [] => none
  | [_] => none
  | a :: b :: rest =>
    if (a == 'P' || a == 'p') && (b == 'T' || b == 't') then some rest
    else afterPT (b :: rest)

/-- One optional group `(?:(\d+)X)?` (case-insensitive letter): a nonempty
digit run immediately followed by the letter consumes both and yields the
run's value; otherwise nothing is consumed and the group contributes 0,
exactly as the backtracking regex behaves. -/
def groupParse (upper lower : Char) (cs : List Char) : Nat × List Char :=
  match cs.takeWhile Char.isDigit with
  | [] => (0, cs)
  | ds =>
    match cs.dropWhile Char.isDigit with
    | c :: rest2 =>
      if c == upper || c == lower then (digitsToNat ds, rest2)
      else (0, cs)
    | [] => (0, cs)

/-- `parseDuration(duration)`: `null` for falsy input; a number is returned
as is; otherwise the string is matched against the `PT#H#M#S` regex
(unanchored, case-insensitive) and converted to minutes with seconds
rounded up, falling back to `parseInt`, with `null` for `NaN`. -/
def parseDuration (v : Js) : Option Int :=
  if truthy v then
    match v with
    | .num n => some n
    | _ =>
      match afterPT (jsToString v).toList with
      | some rest =>
        match groupParse 'H' 'h' rest with
        | (h, r1) =>
          match groupParse 'M' 'm' r1 with
          | (m, r2) =>
            match groupParse 'S' 's' r2 with
            | (s, _) => some (Int.ofNat (h * 60 + m + (s + 59) / 60))
      | none => parseIntJs (jsToString v)
  else none

/-! ### parseServings, parseImage, parseCalories -/

/-- `parseServings(yield_val)`: falsy gives `null`; a number is returned as
is; an array uses its first element, which is then used as a string — when
that element is not a string (or the array is empty) the call of `.match`
on it throws, modelled as `.error ()`; any other value is stringified and
its first digit run extracted. -/
def parseServings (v : Js) : Except Unit (Option Int) :=
  if truthy v then
    match v with
    | .num n => .ok (some n)
    | .arr xs =>
      match xs with
      | .str s :: _ => .ok (firstDigits s)
      | _ => .error ()
    | _ => .ok (firstDigits (jsToString v))
  else .ok none

/-- `parseImage(image)`: `''` for falsy input; a string is returned as is;
an array yields its first element (stringified here; a falsy first element
gives `''`); an object yields its truthy `url` or `@id` field; else `''`. -/
def parseImage (v : Js) : String :=
  if truthy v then
    match v with
    | .str s => s
    | .arr [] => ""
    | .arr (x :: _) => if truthy x then jsToString x else ""
    | _ =>
      if truthy (getProp v "url") then jsToString (getProp v "url")
      else if truthy (getProp v "@id") then jsToString (getProp v "@id")
      else ""
  else ""

/-- `parseCalories(nutrition)`: `null` for falsy input, else the first digit
run of `String(nutrition.calories || nutrition.Calories || '')`. -/
def parseCalories (v : Js) : Option Int :=
  if truthy v then
    firstDigits
      (jsToString
        (if truthy (getProp v "calories") then getProp v "calories"
         else if truthy (getProp v "Calories") then getProp v "Calories"
         else .str ""))
  else none

/-! ### looksLikeIngredient -/

/-- Word character of the JavaScript `\b` boundary: ASCII `[A-Za-z0-9_]`. -/
def wordChar (c : Char) : Bool :=
  c.isAlpha || c.isDigit || c == '_'

/-- Maximal word-character runs of a character list (`acc` is the reversed
current run).  A whole-word regex alternative `\bw\b` with `w` made of word
characters matches a string exactly when `w` is one of these runs. -/
def wordsOfAux (acc : List Char) : List Char → List String
  | [] => if acc.isEmpty then [] else [String.mk acc.reverse]
  | c :: rest =>
    if wordChar c then wordsOfAux (c :: acc) rest
    else if acc.isEmpty then wordsOfAux [] rest
    else String.mk acc.reverse :: wordsOfAux [] rest

/-- Maximal word-character runs of a string. -/
def wordsOf (s : String) : List String :=
  wordsOfAux [] s.toList

/-- `s.toLowerCase()` (character-list implementation; ASCII). -/
def lowerStr (s : String) : String :=
  String.mk (s.toList.map Char.toLower)

/-- The measurement vocabulary of the source's first regex. -/
def measurementWords : List String :=
  ["cup", "cups", "tbsp", "tsp", "tablespoon", "teaspoon", "oz", "ounce",
   "pound", "lb", "gram", "kg", "ml", "liter", "pinch", "dash", "clove",
   "bunch", "can", "package", "pkg", "bag", "slice", "piece", "whole",
   "half", "quarter", "large", "medium", "small", "fresh", "dried",
   "minced", "chopped", "diced"]

/-- The common-ingredient vocabulary of the source's second regex. -/
def ingredientWords : List String :=
  ["salt", "pepper", "oil", "butter", "garlic", "onion", "sugar", "flour",
   "egg", "milk", "cream", "cheese", "chicken", "beef", "pork", "fish",
   "rice", "pasta", "tomato", "lemon", "herb", "spice", "sauce", "vinegar",
   "broth", "stock", "water"]

/-- `looksLikeIngredient(text)` on a string: lower-case the text and test
both whole-word vocabularies. -/
def looksLikeIngredient (s : String) : Bool :=
  (wordsOf (lowerStr s)).any (fun w => measurementWords.contains w)
    || (wordsOf (lowerStr s)).any (fun w => ingredientWords.contains w)

/-- `looksLikeIngredient` over an arbitrary value: `text.toLowerCase()`
throws a `TypeError` on every non-string receiver. -/
def looksLikeIngredientJs : Js → Except Unit Bool
  | .str s => .ok (looksLikeIngredient s)
  | _ => .error ()

/-! ### The candidate record -/

/-- A recipe candidate as produced by the extractors (the intermediate
object shape of the source).  Numeric fields are `Option Int`, `none`
standing for `null`/`undefined`. -/
structure Candidate where
  name : String
  description : String
  ingredients : List String
  instructions : List String
  prepTime : Option Int
  cookTime : Option Int
  totalTime : Option Int
  servings : Option Int
  image : String
  cuisine : String
  category : String
  calories : Option Int
deriving DecidableEq, Repr

/-! ### parseSchemaRecipe and the JSON-LD extractor -/

mutual

/-- `str.split(/\n+/)`: pieces between maximal newline runs, with an empty
leading piece when the string starts with a newline and an empty trailing
piece when it ends with one (JavaScript `split` semantics). -/
def splitNLAux (acc : List Char) : List Char → List String
  | [] => [String.mk acc.reverse]
  | c :: rest =>
    if c == '\n' then String.mk acc.reverse :: splitNLSkip rest
    else splitNLAux (c :: acc) rest

/-- Continuation of `splitNLAux` inside a newline run. -/
def splitNLSkip : List Char → List String
  | [] => [""]
  | c :: rest =>
    if c == '\n' then splitNLSkip rest
    else splitNLAux [c] rest

end

/-- `str.split(/\n+/)` on a string. -/
def splitNL (s : String) : List String :=
  splitNLAux [] s.toList

/-- Strict equality of a value with the string literal `name2`. -/
def isTypeStr (t : Js) (name2 : String) : Bool :=
  match t with
  | .str s => s == name2
  | _ => false

/-- The find predicate of `extractJsonLd`:
`item['@type'] === 'Recipe' || (Array.isArray(item['@type']) && item['@type'].includes('Recipe'))`,
applied to the already-read `@type` value. -/
def typeMatches (t : Js) : Bool :=
  isTypeStr t ("Recipe")
    || (match t with
        | .arr xs => xs.any (fun x => isTypeStr x ("Recipe"))
        | _ => false)

/-- `step.text || step.name || ''` for a non-null receiver. -/
def textOrName (step : Js) : Js :=
  if truthy (getProp step "text") then getProp step "text"
  else if truthy (getProp step "name") then getProp step "name"
  else .str ""

/-- The sub-steps of a `HowToSection`: `cleanText(s.text || s.name || '')`
for each element; a `null`/`undefined` element makes the property read
throw. -/
def sectionParts : List Js → Except Unit (List String)
  | [] => .ok []
  | s :: rest =>
    match s with
    | .null => .error ()
    | .undefined => .error ()
    | _ => (sectionParts rest).map (fun ps => cleanTextJs (textOrName s) :: ps)

/-- One entry of `data.recipeInstructions` mapped to a text line: a string
is cleaned; otherwise `step['@type']` is read (throwing on `null`), a
`HowToStep` yields its cleaned `text`/`name`, a `HowToSection` with an
array `itemListElement` joins its cleaned sub-steps with spaces, and
anything else falls back to its cleaned `text`/`name`. -/
def stepText (step : Js) : Except Unit String :=
  match step with
  | .str s => .ok (cleanTextStr s)
  | .null => .error ()
  | .undefined => .error ()
  | _ =>
    if isTypeStr (getProp step "@type") ("HowToStep") then
      .ok (cleanTextJs (textOrName step))
    else
      if isTypeStr (getProp step "@type") ("HowToSection") then
        match getProp step "itemListElement" with
        | .arr xs => (sectionParts xs).map (fun ps => String.intercalate (" ") ps)
        | _ => .ok (cleanTextJs (textOrName step))
      else .ok (cleanTextJs (textOrName step))

/-- `stepText` over a list of steps, propagating the first throw. -/
def stepList : List Js → Except Unit (List String)
  | [] => .ok []
  | s :: rest =>
    match stepText s with
    | .error e => .error e
    | .ok t => (stepList rest).map (fun ts => t :: ts)

/-- The instructions of a schema.org recipe object: an array is mapped with
`stepText` and empty lines dropped; a string is split on newline runs,
cleaned, and empty lines dropped; anything else leaves the list empty. -/
def instructionsOf (v : Js) : Except Unit (List String) :=
  match v with
  | .arr steps => (stepList steps).map (fun l => l.filter (fun x => x != ""))
  | .str s => .ok (((splitNL s).map cleanTextStr).filter (fun x => x != ""))
  | _ => .ok []

/-- The ingredients of a schema.org recipe object: an array is mapped with
`cleanText` (no filtering at this stage); anything else leaves the list
empty. -/
def ingredientsOf (v : Js) : List String :=
  match v with
  | .arr xs => xs.map cleanTextJs
  | _ => []

/-- `recipeCuisine`: an array is joined with `', '`, else `value || ''`. -/
def cuisineOf (v : Js) : String :=
  match v with
  | .arr xs => String.intercalate (", ") (xs.map jsElemToString)
  | v2 => candStr v2

/-- `recipeCategory`: the first element of an array (empty array giving
`undefined`, hence `''` once cleaned), else `value || ''`. -/
def categoryOf (v : Js) : String :=
  match v with
  | .arr [] => ""
  | .arr (x :: _) => candStr x
  | v2 => candStr v2

/-- `parseSchemaRecipe(data)`: maps a schema.org Recipe object to a
candidate.  A `null` receiver throws on the first property read, and
`parseServings` on a malformed `recipeYield` or a throwing instruction
entry propagates — the enclosing `try` of `extractJsonLd` then skips the
whole block.  (For a non-null receiver every property read is the
non-throwing `getProp`.) -/
def parseSchemaRecipe (data : Js) : Except Unit Candidate :=
  match data with
  | .null => .error ()
  | .undefined => .error ()
  | _ =>
    match parseServings (getProp data "recipeYield") with
    | .error e => .error e
    | .ok servings =>
      match instructionsOf (getProp data "recipeInstructions") with
      | .error e => .error e
      | .ok instructions =>
        .ok { name := candStr (getProp data "name")
              description := candStr (getProp data "description")
              ingredients := ingredientsOf (getProp data "recipeIngredient")
              instructions := instructions
              prepTime := parseDuration (getProp data "prepTime")
              cookTime := parseDuration (getProp data "cookTime")
              totalTime := parseDuration (getProp data "totalTime")
              servings := servings
              image := parseImage (getProp data "image")
              cuisine := cuisineOf (getProp data "recipeCuisine")
              category := categoryOf (getProp data "recipeCategory")
              calories := parseCalories (getProp data "nutrition") }

/-- `data.find(item => ...)` of `extractJsonLd`: first Recipe-typed entry;
reading `@type` of a `null`/`undefined` entry throws. -/
def findRecipeEx : List Js → Except Unit (Option Js)
  | [] => .ok none
  | x :: xs =>
    match x with
    | .null => .error ()
    | .undefined => .error ()
    | _ =>
      if typeMatches (getProp x "@type") then .ok (some x)
      else findRecipeEx xs

/-- Collapse of the per-block `try`/`catch`: a thrown candidate becomes
"no candidate from this block". -/
def exceptCand : Except Unit Candidate → Option Candidate
  | .error _ => none
  | .ok c => some c

/-- The body of one iteration of `extractJsonLd`'s loop, applied to an
already-parsed block: unwrap a truthy `@graph`, then either search an array
for a Recipe-typed entry or check the object's own `@type`; every throw is
caught and yields `none`. -/
def processParsed (data : Js) : Option Candidate :=
  match data with
  | .null => none
  | .undefined => none
  | _ =>
    match (if truthy (getProp data "@graph") then getProp data "@graph" else data) with
    | .arr items =>
      match findRecipeEx items with
      | .error _ => none
      | .ok none => none
      | .ok (some it) => exceptCand (parseSchemaRecipe it)
    | d =>
      if typeMatches (getProp d "@type") then exceptCand (parseSchemaRecipe d)
      else none

/-- One `<script type="application/ld+json">` block, given as the result of
`JSON.parse` of its text: `none` models a block whose JSON failed to parse
(skipped silently by the source's `catch`). -/
def processBlock : Option Js → Option Candidate
  | none => none
  | some data => processParsed data

/-- `extractJsonLd($)`: scan the script blocks in document order and return
the first candidate. -/
def extractJsonLd : List (Option Js) → Option Candidate
  | [] => none
  | b :: rest =>
    match processBlock b with
    | some c => some c
    | none => extractJsonLd rest

/-! ### Microdata extractor -/

/-- The query results `extractMicrodata` reads from the first element
matching `[itemtype*="schema.org/Recipe"]`.  Each `...Text` field is the
raw `.text()` of the corresponding `itemprop` query (cheerio returns `""`
for an empty selection); each `Option String` field is the `attr(...)`
result, `none` standing for `undefined` on a missing attribute. -/
structure MicroElem where
  nameText : String
  descText : String
  ingredientTexts : List String
  instructionTexts : List String
  prepContent : Option String
  prepText : String
  cookContent : Option String
  cookText : String
  totalContent : Option String
  totalText : String
  yieldText : String
  imageSrc : Option String
  imageContent : Option String
  cuisineText : String
  categoryText : String

/-- `a || b` where `a` is an attribute read (`undefined` or a string). -/
def strOr (a : Option String) (b : String) : String :=
  match a with
  | some s => if s == "" then b else s
  | none => b

/-- `parseServings` on a string never throws; this is the value it returns
there (used where the source passes `.text()` results). -/
def parseServingsStr (s : String) : Option Int :=
  match parseServings (.str s) with
  | .ok v => v
  | .error _ => none

/-- `extractMicrodata($)`: `null` when no recipe-annotated element exists,
otherwise a candidate is always produced from the sub-queries — there is no
usability check on this path.  Time fields prefer the `content` attribute
over the text; calories are always `null`. -/
def extractMicrodata : Option MicroElem → Option Candidate
  | none => none
  | some e =>
    some { name := jsTrim e.nameText
           description := jsTrim e.descText
           ingredients := e.ingredientTexts.map jsTrim
           instructions := e.instructionTexts.map jsTrim
           prepTime := parseDuration (.str (strOr e.prepContent e.prepText))
           cookTime := parseDuration (.str (strOr e.cookContent e.cookText))
           totalTime := parseDuration (.str (strOr e.totalContent e.totalText))
           servings := parseServingsStr e.yieldText
           image := strOr e.imageSrc (strOr e.imageContent "")
           cuisine := jsTrim e.cuisineText
           category := jsTrim e.categoryText
           calories := none }

/-! ### Heuristic extractor -/

/-- The parts of the parsed document the pipeline reads.  `scripts` are the
JSON-LD blocks (post-`JSON.parse`, `none` for a malformed block), `micro`
the first recipe-annotated element if any, `h1Text`/`titleText` the raw
texts of the first `h1` and of `title` (cheerio gives `""` for an empty
selection), `ulItems`/`olItems` the raw texts of every `ul li` / `ol li`
in document order, and the two `Option String` fields the `attr('content')`
reads of the description and `og:image` meta tags. -/
structure Doc where
  scripts : List (Option Js)
  micro : Option MicroElem
  h1Text : String
  titleText : String
  ulItems : List String
  olItems : List String
  metaDescription : Option String
  ogImage : Option String

/-- `extractHeuristic($, url)`: title from the first `h1`, falling back to
the document title, `null` when both are empty; ingredients are the trimmed
`ul li` texts of length 4..199 passing `looksLikeIngredient`; instructions
the trimmed `ol li` texts of length 11..999; `null` when fewer than 2 of
each were found. -/
def extractHeuristic (d : Doc) (_url : String) : Option Candidate :=
  let title := if jsTrim d.h1Text == "" then jsTrim d.titleText else jsTrim d.h1Text
  let ingredients := (d.ulItems.map jsTrim).filter
    (fun t => decide (3 < t.length) && decide (t.length < 200) && looksLikeIngredient t)
  let instructions := (d.olItems.map jsTrim).filter
    (fun t => decide (10 < t.length) && decide (t.length < 1000))
  if title == "" then none
  else
    if ingredients.length < 2 ∧ instructions.length < 2 then none
    else
      some { name := title
             description := strOr d.metaDescription ""
             ingredients := ingredients
             instructions := instructions
             prepTime := none
             cookTime := none
             totalTime := none
             servings := none
             image := strOr d.ogImage ""
             cuisine := ""
             category := ""
             calories := none }

/-! ### JSON parsing (for the AI reply) -/

/-- JSON whitespace skipping (`ws` of RFC 8259, as accepted by
`JSON.parse`). -/
def skipJsonWs (cs : List Char) : List Char :=
  cs.dropWhile (fun c => c == ' ' || c == '\t' || c == '\n' || c == '\r')

/-- Body of a JSON string after the opening quote: the decoded characters
and the rest after the closing quote.  Escapes are decoded as by
`JSON.parse` (`\u` takes four hex digits); a control character, bad escape
or missing closing quote fails.  Astral characters and lone surrogates are
outside the model. -/
def parseJsonStrAux : List Char → Option (List Char × List Char)
  | [] => none
  | '"' :: rest => some ([], rest)
  | '\\' :: esc =>
    match esc with
    | '"' :: rest => (parseJsonStrAux rest).map (fun p => ('"' :: p.1, p.2))
    | '\\' :: rest => (parseJsonStrAux rest).map (fun p => ('\\' :: p.1, p.2))
    | '/' :: rest => (parseJsonStrAux rest).map (fun p => ('/' :: p.1, p.2))
    | 'b' :: rest => (parseJsonStrAux rest).map (fun p => (Char.ofNat 8 :: p.1, p.2))
    | 'f' :: rest => (parseJsonStrAux rest).map (fun p => (Char.ofNat 12 :: p.1, p.2))
    | 'n' :: rest => (parseJsonStrAux rest).map (fun p => ('\n' :: p.1, p.2))
    | 'r' :: rest => (parseJsonStrAux rest).map (fun p => ('\r' :: p.1, p.2))
    | 't' :: rest => (parseJsonStrAux rest).map (fun p => ('\t' :: p.1, p.2))
    | 'u' :: h1 :: h2 :: h3 :: h4 :: rest =>
      if isHexDigitChar h1 && isHexDigitChar h2 && isHexDigitChar h3 && isHexDigitChar h4 then
        (parseJsonStrAux rest).map
          (fun p => (Char.ofNat (hexToNat [h1, h2, h3, h4]) :: p.1, p.2))
      else none
    | _ => none
  | c :: rest =>
    if c.toNat < 32 then none
    else (parseJsonStrAux rest).map (fun p => (c :: p.1, p.2))

/-- Reject the fractional/exponent continuations that are outside the
model (the values flowing through this pipeline are integers). -/
def checkNoNumTail (n : Int) (rest : List Char) : Option (Int × List Char) :=
  match rest with
  | '.' :: _ => none
  | 'e' :: _ => none
  | 'E' :: _ => none
  | _ => some (n, rest)

/-- Unsigned part of a JSON number: a digit run with no leading zero. -/
def parseJsonNatNum (cs : List Char) : Option (Int × List Char) :=
  match cs.takeWhile Char.isDigit with
  | [] => none
  | ['0'] => checkNoNumTail (Int.ofNat 0) (cs.drop 1)
  | '0' :: _ :: _ => none
  | ds => checkNoNumTail (Int.ofNat (digitsToNat ds)) (cs.drop ds.length)

/-- A JSON number at the head of the list: optional minus then the unsigned
part. -/
def parseJsonNum (cs : List Char) : Option (Int × List Char) :=
  match cs with
  | '-' :: rest => (parseJsonNatNum rest).map (fun p => (-p.1, p.2))
  | _ => parseJsonNatNum cs

mutual

/-- One JSON value at the head of the list (fuelled recursive descent). -/
def parseJsonVal : Nat → List Char → Option (Js × List Char)
  | 0, _ => none
  | fuel + 1, cs =>
    match skipJsonWs cs with
    | '{' :: rest => parseJsonObjBody fuel rest
    | '[' :: rest => parseJsonArrBody fuel rest
    | '"' :: rest => (parseJsonStrAux rest).map (fun p => (.str (String.mk p.1), p.2))
    | 't' :: 'r' :: 'u' :: 'e' :: rest => some (.bool true, rest)
    | 'f' :: 'a' :: 'l' :: 's' :: 'e' :: rest => some (.bool false, rest)
    | 'n' :: 'u' :: 'l' :: 'l' :: rest => some (.null, rest)
    | other => (parseJsonNum other).map (fun p => (.num p.1, p.2))

/-- Object body after `{`. -/
def parseJsonObjBody : Nat → List Char → Option (Js × List Char)
  | 0, _ => none
  | fuel + 1, cs =>
    match skipJsonWs cs with
    | '}' :: rest => some (.obj [], rest)
    | _ => (parseJsonMembers fuel (skipJsonWs cs)).map (fun p => (.obj p.1, p.2))

/-- Nonempty member list of an object, up to and including the closing
`}`. -/
def parseJsonMembers : Nat → List Char → Option (List (String × Js) × List Char)
  | 0, _ => none
  | fuel + 1, cs =>
    match cs with
    | '"' :: rest =>
      match parseJsonStrAux rest with
      | none => none
      | some (key, afterKey) =>
        match skipJsonWs afterKey with
        | ':' :: afterColon =>
          match parseJsonVal fuel afterColon with
          | none => none
          | some (v, afterVal) =>
            match skipJsonWs afterVal with
            | ',' :: afterComma =>
              (parseJsonMembers fuel (skipJsonWs afterComma)).map
                (fun p => ((String.mk key, v) :: p.1, p.2))
            | '}' :: rest2 => some ([(String.mk key, v)], rest2)
            | _ => none
        | _ => none
    | _ => none

/-- Array body after `[`, including elements and the closing `]`. -/
def parseJsonArrBody : Nat → List Char → Option (Js × List Char)
  | 0, _ => none
  | fuel + 1, cs =>
    match skipJsonWs cs with
    | ']' :: rest => some (.arr [], rest)
    | _ => (parseJsonElems fuel (skipJsonWs cs)).map (fun p => (.arr p.1, p.2))

/-- Nonempty element list of an array, up to and including the closing
`]`. -/
def parseJsonElems : Nat → List Char → Option (List Js × List Char)
  | 0, _ => none
  | fuel + 1, cs =>
    match parseJsonVal fuel cs with
    | none => none
    | some (v, afterVal) =>
      match skipJsonWs afterVal with
      | ',' :: afterComma => (parseJsonElems fuel afterComma).map (fun p => (v :: p.1, p.2))
      | ']' :: rest2 => some ([v], rest2)
      | _ => none

end

/-- `JSON.parse(s)` (within the model: integer numbers, basic-plane
strings): `none` models a thrown `SyntaxError`.  The fuel bound exceeds any
possible recursion depth for the input length. -/
def jsonParse (s : String) : Option Js :=
  match parseJsonVal (4 * s.length + 8) s.toList with
  | some (v, rest) => if (skipJsonWs rest).isEmpty then some v else none
  | none => none

/-! ### AI-assisted extractor -/

/-- Outcome of the `fetch` to the language-model service.
`fetchFail` is a rejected fetch (network error, or the 15-second
`AbortSignal` timeout); `notOk` a response with `response.ok` false;
`okBadBody` a 2xx response whose `response.json()` rejects; `ok body` a
2xx response with parsed JSON body `body`. -/
inductive AiResult where
  | fetchFail : AiResult
  | notOk : AiResult
  | okBadBody : AiResult
  | ok : Js → AiResult

/-- `text.match(/\{[\s\S]*\}/)`: the substring from the first `{` to the
last `}` after it, `none` when there is no such pair. -/
def jsonSlice (s : String) : Option String :=
  match s.toList.dropWhile (fun c => c != '{') with
  | [] => none
  | suffix =>
    match (suffix.reverse.dropWhile (fun c => c != '}')).reverse with
    | [] => none
    | kept => some (String.mk kept)

/-- `data.content?.[0]` — indexing the already non-nullish `content`. -/
def index0 : Js → Js
  | .arr (x :: _) => x
  | .arr [] => .undefined
  | .str s =>
    match s.toList with
    | c :: _ => .str (String.mk [c])
    | [] => .undefined
  | .obj fs => getProp (.obj fs) "0"
  | _ => .undefined

/-- Numeric fields of the AI reply (`parsed.prepTime` etc. are stored
untranslated by the source).  Modelling assumption: the reply follows the
prompt's contract of "minutes or null", so a non-number is treated as
absent. -/
def jsNumOpt : Js → Option Int
  | .num n => some n
  | _ => none

/-- List fields of the AI reply (`parsed.ingredients || []`).  Modelling
assumption: the reply follows the prompt's contract of "array of strings",
so a non-array is treated as absent; elements are stringified the way the
normalizer's `cleanText` would coerce them. -/
def jsStrList : Js → List String
  | .arr xs => xs.map candStr
  | _ => []

/-- The candidate built from a successfully parsed, non-error AI reply
(the object literal at the end of `extractWithClaude`). -/
def claudeCandidate (parsed : Js) : Candidate :=
  { name := candStr (getProp parsed "name")
    description := candStr (getProp parsed "description")
    ingredients := jsStrList (getProp parsed "ingredients")
    instructions := jsStrList (getProp parsed "instructions")
    prepTime := jsNumOpt (getProp parsed "prepTime")
    cookTime := jsNumOpt (getProp parsed "cookTime")
    totalTime :=
      match jsNumOpt (getProp parsed "prepTime"), jsNumOpt (getProp parsed "cookTime") with
      | some p, some q => if p ≠ 0 ∧ q ≠ 0 then some (p + q) else none
      | _, _ => none
    servings := jsNumOpt (getProp parsed "servings")
    image := ""
    cuisine := candStr (getProp parsed "cuisine")
    category := candStr (getProp parsed "category")
    calories := none }

/-- Processing of a successful service response body, with every possible
throw in the `Except` monad: read `data.content?.[0]?.text || ''` (a
non-string truthy `text` makes `.match` throw), locate the `{...}` slice,
`JSON.parse` it (a parse failure throws), and reject a truthy `error`
field. -/
def claudeProcess (body : Js) : Except Unit (Option Candidate) :=
  match getEx body "content" with
  | .error e => .error e
  | .ok content =>
    match (match content with
           | .null => Js.undefined
           | .undefined => Js.undefined
           | c => (match index0 c with
                   | .null => Js.undefined
                   | .undefined => Js.undefined
                   | el => getProp el "text")) with
    | textV =>
      match (if truthy textV then textV else .str "") with
      | .str s =>
        match jsonSlice s with
        | none => .ok none
        | some sl =>
          match jsonParse sl with
          | none => .error ()
          | some parsed =>
            if truthy (getProp parsed "error") then .ok none
            else .ok (some (claudeCandidate parsed))
      | _ => .error ()

/-- `extractWithClaude($, url)` as a function of the service call's
outcome: every failure path — rejected fetch (including timeout), non-ok
response, unreadable body, reply without a `{...}` blob, reply whose blob
fails to parse, parsed object with a truthy `error` — yields `null`
(thrown cases through the enclosing `catch`). -/
def extractWithClaude : AiResult → Option Candidate
  | .fetchFail => none
  | .notOk => none
  | .okBadBody => none
  | .ok body =>
    match claudeProcess body with
    | .error _ => none
    | .ok r => r

/-! ### Normalizer -/

/-- The canonical recipe returned to the caller, including the two
provenance fields. -/
structure Recipe where
  name : String
  description : String
  ingredients : List String
  instructions : List String
  prepTime : Option Int
  cookTime : Option Int
  totalTime : Option Int
  servings : Option Int
  image : String
  cuisine : String
  category : String
  calories : Option Int
  sourceUrl : String
  importedAt : String
deriving DecidableEq, Repr

/-- Truthiness of a candidate's numeric field (`none` is `null`, and the
number 0 is falsy). -/
def truthyOpt : Option Int → Bool
  | some n => n != 0
  | none => false

/-- `value || null` on a numeric field: `null` unless truthy. -/
def orNull (o : Option Int) : Option Int :=
  if truthyOpt o then o else none

/-- The normalizer's `totalTime` expression:
`recipe.totalTime || (recipe.prepTime && recipe.cookTime ? recipe.prepTime + recipe.cookTime : null)`. -/
def totalOf (p c t : Option Int) : Option Int :=
  if truthyOpt t then t
  else if truthyOpt p && truthyOpt c then some (p.getD 0 + c.getD 0)
  else none

/-- The normalizer's list treatment: `list.map(i => cleanText(i)).filter(Boolean)`. -/
def cleanList (l : List String) : List String :=
  (l.map cleanTextStr).filter (fun x => x != "")

/-- `normalizeRecipe(recipe, sourceUrl)`.  The `new Date().toISOString()`
timestamp is passed in as `now`.  Note the `||` chains: a zero numeric
field counts as absent, and `totalTime` falls back to `prepTime + cookTime`
only when the candidate's own `totalTime` is falsy and both summands are
truthy. -/
def normalizeRecipe (r : Candidate) (sourceUrl now : String) : Recipe :=
  { name := if cleanTextStr r.name == "" then "Imported Recipe" else cleanTextStr r.name
    description := cleanTextStr r.description
    ingredients := cleanList r.ingredients
    instructions := cleanList r.instructions
    prepTime := orNull r.prepTime
    cookTime := orNull r.cookTime
    totalTime := totalOf r.prepTime r.cookTime r.totalTime
    servings := orNull r.servings
    image := if r.image == "" then "" else r.image
    cuisine := cleanTextStr r.cuisine
    category := cleanTextStr r.category
    calories := orNull r.calories
    sourceUrl := sourceUrl
    importedAt := now }

/-- The candidate-shaped view of a Recipe (the fields `normalizeRecipe`
reads when applied to its own output; provenance fields are not read). -/
def Recipe.toCandidate (r : Recipe) : Candidate :=
  { name := r.name
    description := r.description
    ingredients := r.ingredients
    instructions := r.instructions
    prepTime := r.prepTime
    cookTime := r.cookTime
    totalTime := r.totalTime
    servings := r.servings
    image := r.image
    cuisine := r.cuisine
    category := r.category
    calories := r.calories }

/-! ### Cascade controller -/

/-- The candidate selection of `exports.handler` (lines 59–75 of the
source): JSON-LD, then microdata, then heuristic, each tried only while the
previous stages produced `null`; the AI stage additionally requires the
`ANTHROPIC_API_KEY` to be configured (`hasKey`). -/
def selectCandidate (d : Doc) (url : String) (hasKey : Bool) (ai : AiResult) :
    Option Candidate :=
  match extractJsonLd d.scripts with
  | some r => some r
  | none =>
    match extractMicrodata d.micro with
    | some r => some r
    | none =>
      match extractHeuristic d url with
      | some r => some r
      | none => if hasKey then extractWithClaude ai else none

/-- Outcome of one import request past the fetch: a normalized recipe
(HTTP 200) or the 422 "could not extract" response. -/
inductive PipeOutcome where
  | ok : Recipe → PipeOutcome
  | notFound : PipeOutcome
deriving DecidableEq, Repr

/-- The import pipeline from parsed document to outcome: the cascade
followed by normalization of the winning candidate. -/
def pipeline (d : Doc) (url now : String) (hasKey : Bool) (ai : AiResult) :
    PipeOutcome :=
  match selectCandidate d url hasKey ai with
  | some r => .ok (normalizeRecipe r url now)
  | none => .notFound

/-! ### Concrete fixtures -/

/-- The Lemon Cod structured-data block of the spec's end-to-end property
(no `totalTime`; one ingredient carries markup and doubled spaces to
exercise cleaning). -/
def lemonJson : Js :=
  .obj [("@type", .str "Recipe"), ("name", .str "Lemon Cod"),
        ("recipeIngredient", .arr [.str "2  fillets <b>cod</b>", .str "1 lemon"]),
        ("prepTime", .str "PT10M"), ("cookTime", .str "PT15M"),
        ("recipeInstructions", .arr [.str "Bake.", .str "Serve."])]

/-- The candidate `extractJsonLd` produces from `lemonJson`. -/
def lemonCand : Candidate :=
  { name := "Lemon Cod"
    description := ""
    ingredients := ["2 fillets cod", "1 lemon"]
    instructions := ["Bake.", "Serve."]
    prepTime := some 10
    cookTime := some 15
    totalTime := none
    servings := none
    image := ""
    cuisine := ""
    category := ""
    calories := none }

/-- A microdata element whose name differs from the Lemon Cod fixture. -/
def microFix : MicroElem :=
  { nameText := "Micro Dish"
    descText := ""
    ingredientTexts := []
    instructionTexts := []
    prepContent := none
    prepText := ""
    cookContent := none
    cookText := ""
    totalContent := none
    totalText := ""
    yieldText := ""
    imageSrc := none
    imageContent := none
    cuisineText := ""
    categoryText := "" }

/-- The candidate `extractMicrodata` produces from `microFix`. -/
def microFixCand : Candidate :=
  { name := "Micro Dish"
    description := ""
    ingredients := []
    instructions := []
    prepTime := none
    cookTime := none
    totalTime := none
    servings := none
    image := ""
    cuisine := ""
    category := ""
    calories := none }

/-- A document carrying BOTH the structured-data fixture and a microdata
recipe element. -/
def bothDoc : Doc :=
  { scripts := [some lemonJson]
    micro := some microFix
    h1Text := ""
    titleText := ""
    ulItems := []
    olItems := []
    metaDescription := none
    ogImage := none }

/-- A document with no annotations, no list items, no heading, no title. -/
def emptyDoc : Doc :=
  { scripts := []
    micro := none
    h1Text := ""
    titleText := ""
    ulItems := []
    olItems := []
    metaDescription := none
    ogImage := none }

/-! ### C1 — cascade order -/

/-- C1: the pipeline tries Structured-Data, Microdata, Heuristic, then
AI-Assisted, in that fixed order; the first non-null candidate wins and no
later stage is consulted (the result does not depend on the AI outcome once
an earlier stage succeeded); the AI stage runs only when the credential is
configured and all three deterministic stages returned null; and when both
the Structured-Data and the Microdata extractor succeed, the pipeline's
candidate is the Structured-Data one. -/
theorem claim_c1 (d : Doc) (u : String) (k : Bool) (ai ai2 : AiResult) :
    (∀ c, extractJsonLd d.scripts = some c → selectCandidate d u k ai = some c)
  ∧ (∀ c, extractJsonLd d.scripts = none → extractMicrodata d.micro = some c →
      selectCandidate d u k ai = some c)
  ∧ (∀ c, extractJsonLd d.scripts = none → extractMicrodata d.micro = none →
      extractHeuristic d u = some c → selectCandidate d u k ai = some c)
  ∧ (extractJsonLd d.scripts = none → extractMicrodata d.micro = none →
      extractHeuristic d u = none → selectCandidate d u true ai = extractWithClaude ai)
  ∧ (extractJsonLd d.scripts = none → extractMicrodata d.micro = none →
      extractHeuristic d u = none → selectCandidate d u false ai = none)
  ∧ (∀ c, extractJsonLd d.scripts = some c →
      selectCandidate d u k ai = selectCandidate d u k ai2)
  ∧ (∀ cS cM, extractJsonLd d.scripts = some cS → extractMicrodata d.micro = some cM →
      selectCandidate d u k ai = some cS) := by
  refine ⟨?_, ?_, ?_, ?_, ?_, ?_, ?_⟩
  · intro c h
    simp [selectCandidate, h]
  · intro c h1 h2
    simp [selectCandidate, h1, h2]
  · intro c h1 h2 h3
    simp [selectCandidate, h1, h2, h3]
  · intro h1 h2 h3
    simp [selectCandidate, h1, h2, h3]
  · intro h1 h2 h3
    simp [selectCandidate, h1, h2, h3]
  · intro c h
    simp [selectCandidate, h]
  · intro cS cM h1 _h2
    simp [selectCandidate, h1]

/-- Witness for C1 at a concrete document on which both the structured-data
and the microdata stage would succeed: the pipeline's candidate is the
structured-data one, recognizable by its name. -/
theorem claim_c1_witness :
    selectCandidate bothDoc ("http://x") true .fetchFail = some lemonCand
  ∧ extractJsonLd bothDoc.scripts = some lemonCand
  ∧ extractMicrodata bothDoc.micro = some microFixCand
  ∧ lemonCand.name = "Lemon Cod"
  ∧ microFixCand.name ≠ "Lemon Cod" := by
  refine ⟨?_, by decide, by decide, by decide, by decide⟩
  exact (claim_c1 bothDoc ("http://x") true .fetchFail .fetchFail).1 lemonCand (by decide)

/-! ### C2 — usability rule -/

/-- The spec's usability threshold on a candidate: a non-empty name, or at
least two ingredients, or at least two instructions. -/
def usableCand (c : Candidate) : Prop :=
  c.name ≠ "" ∨ 2 ≤ c.ingredients.length ∨ 2 ≤ c.instructions.length

instance (c : Candidate) : Decidable (usableCand c) := by
  unfold usableCand
  infer_instance

/-- A recipe-annotated element none of whose sub-queries matched anything:
every text is `""`, every attribute absent. -/
def emptyMicroElem : MicroElem :=
  { nameText := ""
    descText := ""
    ingredientTexts := []
    instructionTexts := []
    prepContent := none
    prepText := ""
    cookContent := none
    cookText := ""
    totalContent := none
    totalText := ""
    yieldText := ""
    imageSrc := none
    imageContent := none
    cuisineText := ""
    categoryText := "" }

/-- The all-empty candidate `extractMicrodata` produces from it. -/
def emptyMicroCand : Candidate :=
  { name := ""
    description := ""
    ingredients := []
    instructions := []
    prepTime := none
    cookTime := none
    totalTime := none
    servings := none
    image := ""
    cuisine := ""
    category := ""
    calories := none }

/-- C2 counterexample: on a document whose recipe-annotated element has no
usable content at all, the Microdata extractor still returns a candidate —
an empty one — instead of `null`, so the cascade does not fall through. -/
theorem claim_c2_counterexample :
    extractMicrodata (some emptyMicroElem) = some emptyMicroCand
  ∧ ¬ usableCand emptyMicroCand := by
  constructor
  · decide
  · decide

/-- The usability argument for the heuristic extractor's result shape. -/
theorem heurCore (title dsc img : String) (ings ins : List String) (c : Candidate)
    (h : (if title == "" then none
          else if ings.length < 2 ∧ ins.length < 2 then none
          else some { name := title, description := dsc, ingredients := ings,
                      instructions := ins, prepTime := none, cookTime := none,
                      totalTime := none, servings := none, image := img,
                      cuisine := "", category := "", calories := none }) = some c) :
    c.name ≠ "" ∧ (2 ≤ c.ingredients.length ∨ 2 ≤ c.instructions.length) := by
  split at h
  · exact absurd h (by simp)
  · split at h
    · exact absurd h (by simp)
    · next h1 h2 =>
        obtain rfl := (Option.some.inj h).symm
        refine ⟨by simpa using h1, ?_⟩
        show 2 ≤ ings.length ∨ 2 ≤ ins.length
        omega

/-- C2 amended: only the Heuristic extractor enforces the usability rule —
every candidate it returns has a non-empty name and at least two
ingredients or two instructions — while the Microdata extractor returns a
candidate (usable or not) whenever the recipe-annotated element exists. -/
theorem claim_c2_amended :
    (∀ (d : Doc) (u : String) (c : Candidate), extractHeuristic d u = some c →
      c.name ≠ "" ∧ (2 ≤ c.ingredients.length ∨ 2 ≤ c.instructions.length))
  ∧ (∀ e, (extractMicrodata (some e)).isSome = true) := by
  constructor
  · intro d u c h
    simp only [extractHeuristic] at h
    exact heurCore _ _ _ _ _ _ h
  · intro e
    rfl

/-- A document the heuristic extractor succeeds on. -/
def heurDoc : Doc :=
  { scripts := []
    micro := none
    h1Text := "Beef Stew"
    titleText := ""
    ulItems := ["1 cup water", "2 cloves garlic"]
    olItems := []
    metaDescription := none
    ogImage := none }

/-- The candidate `extractHeuristic` produces from `heurDoc`. -/
def heurCand : Candidate :=
  { name := "Beef Stew"
    description := ""
    ingredients := ["1 cup water", "2 cloves garlic"]
    instructions := []
    prepTime := none
    cookTime := none
    totalTime := none
    servings := none
    image := ""
    cuisine := ""
    category := ""
    calories := none }

/-- Witness for C2 amended at concrete inputs. -/
theorem claim_c2_amended_witness :
    (heurCand.name ≠ "" ∧ (2 ≤ heurCand.ingredients.length ∨ 2 ≤ heurCand.instructions.length))
  ∧ (extractMicrodata (some microFix)).isSome = true := by
  refine ⟨claim_c2_amended.1 heurDoc ("http://x") heurCand (by decide), claim_c2_amended.2 microFix⟩

/-! ### C3 — the normalizer's totalTime rule and the Lemon Cod example -/

/-- A candidate whose `totalTime` is present but zero. -/
def c3cand : Candidate :=
  { name := "Tea"
    description := ""
    ingredients := []
    instructions := []
    prepTime := some 10
    cookTime := some 15
    totalTime := some 0
    servings := none
    image := ""
    cuisine := ""
    category := ""
    calories := none }

/-- C3 counterexample: a candidate with `totalTime` present (the number 0,
e.g. from `totalTime: "PT0M"`) and prep/cook 10/15 normalizes to
`totalTime = 25`, not to the candidate's own `totalTime` — "present" is
really "truthy" in the code. -/
theorem claim_c3_counterexample :
    c3cand.totalTime = some 0
  ∧ (normalizeRecipe c3cand ("http://x") ("t")).totalTime = some 25
  ∧ (normalizeRecipe c3cand ("http://x") ("t")).totalTime ≠ c3cand.totalTime := by
  refine ⟨rfl, by decide, by decide⟩

/-- C3 amended: the Normalizer sets `totalTime` to the candidate's
`totalTime` when that is present and non-zero; otherwise to
`prepTime + cookTime` exactly when both are present and non-zero; otherwise
`null`.  The Lemon Cod fixture behaves as the claim states. -/
theorem claim_c3_amended :
    (∀ (c : Candidate) (u t : String), truthyOpt c.totalTime = true →
      (normalizeRecipe c u t).totalTime = c.totalTime)
  ∧ (∀ (c : Candidate) (u t : String) (p q : Int), truthyOpt c.totalTime = false →
      c.prepTime = some p → c.cookTime = some q → p ≠ 0 → q ≠ 0 →
      (normalizeRecipe c u t).totalTime = some (p + q))
  ∧ (∀ (c : Candidate) (u t : String), truthyOpt c.totalTime = false →
      (truthyOpt c.prepTime && truthyOpt c.cookTime) = false →
      (normalizeRecipe c u t).totalTime = none)
  ∧ extractJsonLd [some lemonJson] = some lemonCand
  ∧ (normalizeRecipe lemonCand ("http://x") ("t")).totalTime = some 25
  ∧ (normalizeRecipe lemonCand ("http://x") ("t")).name = "Lemon Cod"
  ∧ (normalizeRecipe lemonCand ("http://x") ("t")).ingredients
      = ["2 fillets cod", "1 lemon"] := by
  refine ⟨?_, ?_, ?_, by decide, by decide, by decide, by decide⟩
  · intro c u t h
    simp [normalizeRecipe, totalOf, h]
  · intro c u t p q h hp hq hp0 hq0
    simp only [normalizeRecipe, totalOf, h, hp, hq]
    simp [truthyOpt, hp0, hq0]
  · intro c u t h hb
    simp [normalizeRecipe, totalOf, h, hb]

/-- Witness for C3 amended: the general rule applied to the Lemon Cod
candidate. -/
theorem claim_c3_amended_witness :
    (normalizeRecipe lemonCand ("http://x") ("t2")).totalTime = some (10 + 15) :=
  claim_c3_amended.2.1 lemonCand ("http://x") ("t2") 10 15 (by decide) (by decide) (by decide)
    (by decide) (by decide)

/-! ### C4 — parseDuration values -/

/-- C4 counterexample: the bare number 0 is a falsy input, so
`parseDuration(0)` short-circuits to `null` instead of returning the number
itself. -/
theorem claim_c4_counterexample :
    parseDuration (.num 0) = none ∧ parseDuration (.num 0) ≠ some 0 := by
  refine ⟨rfl, by decide⟩

/-- C4 amended: the stated duration values hold, a bare non-zero number is
returned as is (0 gives `null`), a plain numeric string is parsed, and a
string that contains no case-insensitive `PT` and does not `parseInt`
gives `null`. -/
theorem claim_c4_amended :
    parseDuration (.str "PT1H30M") = some 90
  ∧ parseDuration (.str "PT45S") = some 1
  ∧ parseDuration (.str "PT0H0M0S") = some 0
  ∧ (∀ n : Int, n ≠ 0 → parseDuration (.num n) = some n)
  ∧ parseDuration (.str "42") = some 42
  ∧ (∀ s : String, afterPT s.toList = none → parseIntJs s = none →
      parseDuration (.str s) = none)
  ∧ parseDuration (.str "random garbage!") = none := by
  refine ⟨by decide, by decide, by decide, ?_, by decide, ?_, by decide⟩
  · intro n hn
    simp [parseDuration, truthy, hn]
  · intro s h1 h2
    by_cases hs : s = ""
    · subst hs
      decide
    · simp only [String.toList] at h1
      simp only [parseDuration, truthy]
      rw [if_pos (by simpa using hs)]
      simpa [jsToString, h1] using h2

/-- Witness for C4 amended: the general clauses at concrete inputs. -/
theorem claim_c4_amended_witness :
    parseDuration (.num 7) = some 7 ∧ parseDuration (.str "gibberish") = none := by
  refine ⟨claim_c4_amended.2.2.2.1 7 (by decide),
          claim_c4_amended.2.2.2.2.2.1 ("gibberish") (by decide) (by decide)⟩

/-! ### C5 — totalTime consistency invariant -/

/-- A candidate carrying its own (inconsistent) totalTime. -/
def c5cand : Candidate :=
  { name := "Roast"
    description := ""
    ingredients := []
    instructions := []
    prepTime := some 10
    cookTime := some 15
    totalTime := some 100
    servings := none
    image := ""
    cuisine := ""
    category := ""
    calories := none }

/-- C5 counterexample: a winning candidate with `totalTime: 100`,
`prepTime: 10`, `cookTime: 15` is returned with both prep and cook known
yet `totalTime = 100 ≠ 25` — the candidate's own totalTime is passed
through untouched. -/
theorem claim_c5_counterexample :
    (normalizeRecipe c5cand ("http://x") ("t")).prepTime = some 10
  ∧ (normalizeRecipe c5cand ("http://x") ("t")).cookTime = some 15
  ∧ (normalizeRecipe c5cand ("http://x") ("t")).totalTime = some 100
  ∧ (normalizeRecipe c5cand ("http://x") ("t")).totalTime ≠ some (10 + 15) := by
  refine ⟨by decide, by decide, by decide, by decide⟩

/-- C5 amended: when both prepTime and cookTime are known AND the candidate
carried no truthy totalTime of its own, the output satisfies
`totalTime = prepTime + cookTime`; a truthy candidate totalTime is passed
through unchanged even when inconsistent with the sum. -/
theorem claim_c5_amended :
    (∀ (c : Candidate) (u t : String) (p q : Int), truthyOpt c.totalTime = false →
      c.prepTime = some p → c.cookTime = some q → p ≠ 0 → q ≠ 0 →
      (normalizeRecipe c u t).prepTime = some p
      ∧ (normalizeRecipe c u t).cookTime = some q
      ∧ (normalizeRecipe c u t).totalTime = some (p + q))
  ∧ (∀ (c : Candidate) (u t : String), truthyOpt c.totalTime = true →
      (normalizeRecipe c u t).totalTime = c.totalTime) := by
  constructor
  · intro c u t p q h hp hq hp0 hq0
    simp only [normalizeRecipe, totalOf, orNull, h, hp, hq]
    simp [truthyOpt, hp0, hq0]
  · intro c u t h
    simp [normalizeRecipe, totalOf, h]

/-- Witness for C5 amended at a concrete candidate with no totalTime of its
own. -/
theorem claim_c5_amended_witness :
    (normalizeRecipe heurCand ("u") ("t")).totalTime = none
  ∧ (normalizeRecipe c5cand ("u") ("t")).totalTime = c5cand.totalTime := by
  refine ⟨by decide, claim_c5_amended.2 c5cand ("u") ("t") (by decide)⟩

/-! ### C6 — totality of the field parsers -/

/-- Whether an `Except`-modelled call returned without throwing. -/
def exceptOk : Except Unit (Option Int) → Bool
  | .ok _ => true
  | .error _ => false

/-- Whether the `looksLikeIngredient` call returned without throwing. -/
def exceptOkB : Except Unit Bool → Bool
  | .ok _ => true
  | .error _ => false

/-- C6 counterexample: `parseServings` on an array whose first element is a
number calls `.match` on a non-string and throws a `TypeError`, and
`looksLikeIngredient` on a number calls `.toLowerCase()` on a non-string
and throws — neither function is total over all input shapes. -/
theorem claim_c6_counterexample :
    parseServings (.arr [.num 3]) = .error ()
  ∧ looksLikeIngredientJs (.num 3) = .error () := by
  exact ⟨rfl, rfl⟩

/-- C6 amended: `parseDuration`, `parseImage`, `parseCalories` and
`cleanText` are total over every input shape and return their sentinel on
falsy input; `parseServings` returns normally on numbers, strings, `null`
and arrays whose first element is a string, but throws on an array whose
first element is not a string (including the empty array);
`looksLikeIngredient` returns normally exactly on strings. -/
theorem claim_c6_amended :
    (∀ s : String, exceptOk (parseServings (.str s)) = true)
  ∧ (∀ n : Int, exceptOk (parseServings (.num n)) = true)
  ∧ (∀ (s : String) (rest : List Js), exceptOk (parseServings (.arr (.str s :: rest))) = true)
  ∧ exceptOk (parseServings .null) = true
  ∧ (∀ rest : List Js, exceptOk (parseServings (.arr (.num 0 :: rest))) = false)
  ∧ exceptOk (parseServings (.arr [])) = false
  ∧ (∀ s : String, exceptOkB (looksLikeIngredientJs (.str s)) = true)
  ∧ (∀ v : Js, truthy v = false →
      parseDuration v = none ∧ cleanTextJs v = "" ∧ parseImage v = ""
      ∧ parseCalories v = none) := by
  refine ⟨?_, ?_, ?_, rfl, ?_, rfl, ?_, ?_⟩
  · intro s
    by_cases hs : s = "" <;> simp [parseServings, truthy, hs, exceptOk]
  · intro n
    by_cases hn : n = 0 <;> simp [parseServings, truthy, hn, exceptOk]
  · intro s rest
    simp [parseServings, truthy, exceptOk]
  · intro rest
    simp [parseServings, truthy, exceptOk]
  · intro s
    simp [looksLikeIngredientJs, exceptOkB]
  · intro v h
    exact ⟨by simp [parseDuration, h], by simp [cleanTextJs, h],
           by simp [parseImage, h], by simp [parseCalories, h]⟩

/-- Witness for C6 amended at concrete inputs. -/
theorem claim_c6_amended_witness :
    exceptOk (parseServings (.str "4 servings")) = true
  ∧ exceptOk (parseServings (.arr [.str "6 portions", .num 6])) = true
  ∧ exceptOkB (looksLikeIngredientJs (.str "2 cups flour")) = true
  ∧ parseDuration .null = none ∧ cleanTextJs (.num 0) = "" := by
  refine ⟨claim_c6_amended.1 ("4 servings"),
          claim_c6_amended.2.2.1 ("6 portions") [.num 6],
          claim_c6_amended.2.2.2.2.2.2.1 ("2 cups flour"),
          (claim_c6_amended.2.2.2.2.2.2.2 .null (by decide)).1,
          (claim_c6_amended.2.2.2.2.2.2.2 (.num 0) (by decide)).2.1⟩

/-! ### C7 — AI failures are terminal NotFound, never a raise -/

/-- A well-formed service response body whose single content block carries
the reply text `s` (the shape the messages API returns). -/
def mkAiBody (s : String) : Js :=
  .obj [("content", .arr [.obj [("text", .str s)]])]

/-- C7: every failure mode of the language-model call — rejected fetch
(network error or timeout), non-success response, unreadable body, a reply
containing no `{...}` blob, a reply whose blob fails to parse, and a parsed
object with a truthy `error` field — makes the AI-assisted extractor return
`null`; and when it is reached with all deterministic stages already `null`,
the pipeline then reports the NotFound outcome instead of raising. -/
theorem claudeProcess_mkAiBody (s : String) (hs : ¬ s = "") :
    claudeProcess (mkAiBody s) =
      match jsonSlice s with
      | none => .ok none
      | some sl =>
        match jsonParse sl with
        | none => .error ()
        | some parsed =>
          if truthy (getProp parsed "error") then .ok none
          else .ok (some (claudeCandidate parsed)) := by
  have step : claudeProcess (mkAiBody s) =
      (match (if truthy (Js.str s) then Js.str s else Js.str "") with
       | .str s2 =>
         match jsonSlice s2 with
         | none => .ok none
         | some sl =>
           match jsonParse sl with
           | none => .error ()
           | some parsed =>
             if truthy (getProp parsed "error") then .ok none
             else .ok (some (claudeCandidate parsed))
       | _ => .error ()) := rfl
  rw [step, if_pos (show truthy (Js.str s) = true by simp [truthy, hs])]

theorem claim_c7 :
    extractWithClaude .fetchFail = none
  ∧ extractWithClaude .notOk = none
  ∧ extractWithClaude .okBadBody = none
  ∧ (∀ s : String, jsonSlice s = none → extractWithClaude (.ok (mkAiBody s)) = none)
  ∧ (∀ (s sl : String), jsonSlice s = some sl → jsonParse sl = none →
      extractWithClaude (.ok (mkAiBody s)) = none)
  ∧ (∀ (s sl : String) (parsed : Js), jsonSlice s = some sl → jsonParse sl = some parsed →
      truthy (getProp parsed "error") = true → extractWithClaude (.ok (mkAiBody s)) = none)
  ∧ (∀ (d : Doc) (u t : String) (ai : AiResult), extractJsonLd d.scripts = none →
      extractMicrodata d.micro = none → extractHeuristic d u = none →
      extractWithClaude ai = none → pipeline d u t true ai = .notFound) := by
  refine ⟨rfl, rfl, rfl, ?_, ?_, ?_, ?_⟩
  · intro s h
    by_cases hs : s = ""
    · subst hs
      rfl
    · simp only [extractWithClaude]
      rw [claudeProcess_mkAiBody s hs, h]
  · intro s sl h1 h2
    by_cases hs : s = ""
    · subst hs
      simp [jsonSlice] at h1
    · simp only [extractWithClaude]
      rw [claudeProcess_mkAiBody s hs, h1]
      simp [h2]
  · intro s sl parsed h1 h2 h3
    by_cases hs : s = ""
    · subst hs
      simp [jsonSlice] at h1
    · simp only [extractWithClaude]
      rw [claudeProcess_mkAiBody s hs, h1]
      simp [h2, h3]
  · intro d u t ai h1 h2 h3 h4
    simp [pipeline, selectCandidate, h1, h2, h3, h4]

/-- Witness for C7 at concrete replies: prose with no JSON blob, a blob
that fails to parse, an error-object reply, and the NotFound outcome of the
whole pipeline on an empty document when the AI call times out. -/
theorem claim_c7_witness :
    extractWithClaude (.ok (mkAiBody "no json in this reply")) = none
  ∧ extractWithClaude (.ok (mkAiBody "Sure! \x7boops\x7d")) = none
  ∧ extractWithClaude (.ok (mkAiBody "\x7b\"error\": \"no recipe found\"\x7d")) = none
  ∧ pipeline emptyDoc ("http://x") ("t") true .fetchFail = .notFound := by
  refine ⟨claim_c7.2.2.2.1 ("no json in this reply") (by decide),
          claim_c7.2.2.2.2.1 ("Sure! \x7boops\x7d") ("\x7boops\x7d") (by decide) (by rfl),
          claim_c7.2.2.2.2.2.1 ("\x7b\"error\": \"no recipe found\"\x7d")
            ("\x7b\"error\": \"no recipe found\"\x7d")
            (.obj [("error", .str "no recipe found")]) (by decide) (by rfl) (by rfl),
          claim_c7.2.2.2.2.2.2 emptyDoc ("http://x") ("t") .fetchFail rfl rfl (by decide) rfl⟩

/-! ### C8 — @graph unwrapping is transparent -/

/-- A script block wrapping its entries in a `@graph` array. -/
def graphBlock (entries : List Js) : Js :=
  .obj [("@graph", .arr entries)]

/-- C8: for a document whose recognized script block is a `@graph` wrapper
in which the scan finds the Recipe-typed entry `e` (in particular when `e`
is the only Recipe-typed entry), the extractor returns exactly what direct
extraction — `parseSchemaRecipe` applied to `e` as a top-level object —
produces; earlier blocks that yield nothing and later blocks are
irrelevant. -/
theorem claim_c8 (pre post : List (Option Js)) (entries : List Js) (e : Js) (c : Candidate)
    (hpre : ∀ b ∈ pre, processBlock b = none)
    (hfind : findRecipeEx entries = .ok (some e))
    (hparse : parseSchemaRecipe e = .ok c) :
    extractJsonLd (pre ++ (some (graphBlock entries) :: post)) = some c := by
  induction pre with
  | nil =>
    have hgraph : processParsed (graphBlock entries) = some c := by
      simp only [processParsed, graphBlock, getProp, truthy]
      simp [hfind, hparse, exceptCand]
    simp [extractJsonLd, processBlock, hgraph]
  | cons b rest ih =>
    have hb : processBlock b = none := hpre b (by simp)
    have := ih (fun x hx => hpre x (by simp [hx]))
    simpa [extractJsonLd, hb] using this

/-- The Recipe-typed graph entry of the witness document. -/
def c8recipeObj : Js :=
  .obj [("@type", .str "Recipe"), ("name", .str "Soup")]

/-- The graph entries of the witness document: one non-Recipe entry, then
the Recipe. -/
def c8entries : List Js :=
  [.obj [("@type", .str "NewsArticle")], c8recipeObj]

/-- Direct extraction of the witness's Recipe entry. -/
def c8cand : Candidate :=
  { name := "Soup"
    description := ""
    ingredients := []
    instructions := []
    prepTime := none
    cookTime := none
    totalTime := none
    servings := none
    image := ""
    cuisine := ""
    category := ""
    calories := none }

/-- Witness for C8 at a concrete one-block graph document. -/
theorem claim_c8_witness :
    extractJsonLd [some (graphBlock c8entries)] = some c8cand :=
  claim_c8 [] [] c8entries c8recipeObj c8cand (by simp) (by rfl) (by rfl)

/-! ### C9 — normalizer idempotence -/

/-- `cleanText` is idempotent on the string `s`. -/
def cleanIdem (s : String) : Prop :=
  cleanTextStr (cleanTextStr s) = cleanTextStr s

instance (s : String) : Decidable (cleanIdem s) := by
  unfold cleanIdem
  infer_instance

/-- `x || null` is idempotent. -/
theorem orNull_idem (o : Option Int) : orNull (orNull o) = orNull o := by
  simp only [orNull]
  cases ho : truthyOpt o
  · simp [truthyOpt]
  · simp [ho]

/-- `x || null` preserves truthiness. -/
theorem truthyOpt_orNull (o : Option Int) : truthyOpt (orNull o) = truthyOpt o := by
  simp only [orNull]
  cases ho : truthyOpt o
  · simp [truthyOpt]
  · simp [ho]

/-- A truthy field passes through `x || null` unchanged. -/
theorem orNull_of_truthy (o : Option Int) (h : truthyOpt o = true) : orNull o = o := by
  simp [orNull, h]

/-- The normalizer's totalTime expression is stable under renormalization. -/
theorem totalOf_idem (p c t : Option Int) :
    totalOf (orNull p) (orNull c) (totalOf p c t) = totalOf p c t := by
  by_cases ht : truthyOpt t = true
  · simp [totalOf, ht]
  · by_cases hpc : (truthyOpt p && truthyOpt c) = true
    · have hp := (Bool.and_eq_true _ _).mp hpc |>.1
      have hc := (Bool.and_eq_true _ _).mp hpc |>.2
      have hop := orNull_of_truthy p hp
      have hoc := orNull_of_truthy c hc
      simp only [totalOf, ht, hpc, if_false, if_true, Bool.false_eq_true]
      by_cases hx : truthyOpt (some (p.getD 0 + c.getD 0)) = true
      · simp [hx]
      · simp [hx, hop, hoc, hpc]
    · simp [totalOf, ht, hpc, truthyOpt_orNull]

/-- The normalizer's list cleaning is idempotent once `cleanText` is
idempotent on the elements. -/
theorem cleanList_idem (l : List String) (H : ∀ s ∈ l, cleanIdem s) :
    cleanList (cleanList l) = cleanList l := by
  induction l with
  | nil => rfl
  | cons a rest ih =>
    have ha : cleanIdem a := H a (by simp)
    have hrest := ih (fun s hs => H s (by simp [hs]))
    by_cases hne : cleanTextStr a = ""
    · simpa [cleanList, hne] using hrest
    · have ha2 : cleanTextStr (cleanTextStr a) = cleanTextStr a := ha
      have step1 : cleanList (a :: rest) = cleanTextStr a :: cleanList rest := by
        simp [cleanList, hne]
      rw [step1]
      have step2 : cleanList (cleanTextStr a :: cleanList rest)
          = cleanTextStr a :: cleanList (cleanList rest) := by
        simp [cleanList, ha2, hne]
      rw [step2, hrest]

/-- A candidate whose name holds a markup tag flanked by spaces. -/
def c9cand : Candidate :=
  { name := "a <b> c"
    description := ""
    ingredients := []
    instructions := []
    prepTime := none
    cookTime := none
    totalTime := none
    servings := none
    image := ""
    cuisine := ""
    category := ""
    calories := none }

/-- C9 counterexample: cleaning collapses whitespace before stripping tags,
so a tag flanked by spaces leaves a double space that only the second
normalization collapses — the two runs differ in `name`, not just in
`importedAt`. -/
theorem claim_c9_counterexample :
    (normalizeRecipe c9cand ("http://x") ("t")).name = "a  c"
  ∧ (normalizeRecipe ((normalizeRecipe c9cand ("http://x") ("t")).toCandidate)
      ("http://x") ("t")).name = "a c"
  ∧ (normalizeRecipe ((normalizeRecipe c9cand ("http://x") ("t")).toCandidate)
      ("http://x") ("t")).name ≠ (normalizeRecipe c9cand ("http://x") ("t")).name := by
  refine ⟨by decide, by decide, by decide⟩

/-- C9 amended: renormalizing the normalizer's own output changes nothing
but the `importedAt` timestamp, provided `cleanText` is idempotent on each
text field of the candidate (name, description, cuisine, category and every
ingredient and instruction) — in particular whenever those fields hold no
markup tags. -/
theorem claim_c9_amended (c : Candidate) (u t1 t2 : String)
    (hname : cleanIdem c.name) (hdesc : cleanIdem c.description)
    (hcui : cleanIdem c.cuisine) (hcat : cleanIdem c.category)
    (hing : ∀ s ∈ c.ingredients, cleanIdem s)
    (hins : ∀ s ∈ c.instructions, cleanIdem s) :
    normalizeRecipe ((normalizeRecipe c u t1).toCandidate) u t2
      = { normalizeRecipe c u t1 with importedAt := t2 } := by
  have hname2 : cleanTextStr (cleanTextStr c.name) = cleanTextStr c.name := hname
  have hdesc2 : cleanTextStr (cleanTextStr c.description) = cleanTextStr c.description := hdesc
  have hcui2 : cleanTextStr (cleanTextStr c.cuisine) = cleanTextStr c.cuisine := hcui
  have hcat2 : cleanTextStr (cleanTextStr c.category) = cleanTextStr c.category := hcat
  unfold normalizeRecipe Recipe.toCandidate
  simp only [Recipe.mk.injEq, orNull_idem, totalOf_idem, cleanList_idem _ hing,
             cleanList_idem _ hins, hdesc2, hcui2, hcat2, and_true, true_and]
  constructor
  · by_cases hn : cleanTextStr c.name = ""
    · simp only [hn, if_pos, beq_iff_eq, if_true]
      decide
    · simp [hn, hname2]
  · by_cases him : c.image = "" <;> simp [him]

/-- A tag-free candidate for the idempotence witness. -/
def c9good : Candidate :=
  { name := "Stew"
    description := "Nice and warm"
    ingredients := ["1 cup rice", "2 eggs"]
    instructions := ["Cook.", "Serve."]
    prepTime := some 5
    cookTime := some 6
    totalTime := none
    servings := some 2
    image := "img.jpg"
    cuisine := "Comfort"
    category := "Dinner"
    calories := some 100 }

/-- Witness for C9 amended at a concrete tag-free candidate. -/
theorem claim_c9_amended_witness :
    normalizeRecipe ((normalizeRecipe c9good ("http://x") ("t1")).toCandidate) ("http://x") ("t2")
      = { normalizeRecipe c9good ("http://x") ("t1") with importedAt := "t2" } :=
  claim_c9_amended c9good ("http://x") ("t1") ("t2") (by decide) (by decide) (by decide)
    (by decide) (by decide) (by decide)

/-! ### C10 — zero-valued numeric fields -/

/-- A candidate whose totalTime is 0 while prep and cook are non-zero. -/
def c10cand : Candidate :=
  { name := "Salad"
    description := ""
    ingredients := []
    instructions := []
    prepTime := some 7
    cookTime := some 5
    totalTime := some 0
    servings := none
    image := ""
    cuisine := ""
    category := ""
    calories := none }

/-- C10 counterexample: a zero `totalTime` is NOT output as `null` when
both prep and cook are truthy — the fallback sum fires instead, so the
claim's "outputs null for that field" fails for `totalTime`. -/
theorem claim_c10_counterexample :
    c10cand.totalTime = some 0
  ∧ (normalizeRecipe c10cand ("http://x") ("t")).totalTime = some 12
  ∧ (normalizeRecipe c10cand ("http://x") ("t")).totalTime ≠ none := by
  refine ⟨rfl, by decide, by decide⟩

/-- C10 amended: a zero `prepTime`, `cookTime`, `servings` or `calories` is
output as `null`; a zero `totalTime` is treated exactly like a missing one
(so the output falls back to `prepTime + cookTime` when both are truthy,
and is `null` otherwise).  In every one of the five fields a zero value is
indistinguishable from a missing one. -/
theorem claim_c10_amended (c : Candidate) (u t : String) :
    (normalizeRecipe { c with prepTime := some 0 } u t).prepTime = none
  ∧ (normalizeRecipe { c with cookTime := some 0 } u t).cookTime = none
  ∧ (normalizeRecipe { c with servings := some 0 } u t).servings = none
  ∧ (normalizeRecipe { c with calories := some 0 } u t).calories = none
  ∧ (normalizeRecipe { c with prepTime := some 0 } u t)
      = (normalizeRecipe { c with prepTime := none } u t)
  ∧ (normalizeRecipe { c with cookTime := some 0 } u t)
      = (normalizeRecipe { c with cookTime := none } u t)
  ∧ (normalizeRecipe { c with totalTime := some 0 } u t)
      = (normalizeRecipe { c with totalTime := none } u t)
  ∧ (normalizeRecipe { c with servings := some 0 } u t)
      = (normalizeRecipe { c with servings := none } u t)
  ∧ (normalizeRecipe { c with calories := some 0 } u t)
      = (normalizeRecipe { c with calories := none } u t) := by
  refine ⟨?_, ?_, ?_, ?_, ?_, ?_, ?_, ?_, ?_⟩ <;>
    simp [normalizeRecipe, orNull, totalOf, truthyOpt]

/-- Witness for C10 amended at a concrete candidate. -/
theorem claim_c10_amended_witness :
    (normalizeRecipe { c9good with prepTime := some 0 } ("http://x") ("t")).prepTime = none
  ∧ (normalizeRecipe { c9good with totalTime := some 0 } ("http://x") ("t"))
      = (normalizeRecipe { c9good with totalTime := none } ("http://x") ("t")) := by
  refine ⟨(claim_c10_amended c9good ("http://x") ("t")).1,
          (claim_c10_amended c9good ("http://x") ("t")).2.2.2.2.2.2.1⟩
